import Mathlib

/-!
Verification of the `callback_manager` crate (src/lib.rs).

The crate stores a `Vec<Weak<Mutex<CallbackHandler>>>`.  Each stored entry is
modelled by `Entry`: `id` identifies the underlying `Arc` allocation and `tag`
is the arity tag of the `CallbackHandler` variant held in the slot
(`Callback0` … `Callback12`, so `tag` is the number of arguments).  A
`CallbackParams` variant (`CallParams0` … `CallParams12`) carries exactly its
arity many values of `T`, so a parameter tuple is modelled by the list of the
values it carries; its arity tag is the length of that list.

`Weak::upgrade` and `Mutex::lock` are probed by the code at several distinct
instants; each probe site gets its own oracle `Nat → Bool` (entry id ↦ does
the probe succeed).  A purely sequential execution, with no concurrent drop
of a strong handle and no poisoned mutex, is the case where all upgrade
oracles agree and the lock oracles are constantly true.

Handler bodies are arbitrary `FnMut` closures whose only observable behaviour
here is that they get called with particular arguments; an invocation is
recorded in a trace as the pair (entry id, argument values).
-/

/-- The error values produced by `try_match_params` and `run_all`, one
constructor per `return Err(...)` site in src/lib.rs; `message` reproduces the
exact `String` the site builds. -/
inductive DispatchError where
  | countMismatch : DispatchError
  | shapeMismatch : Nat → DispatchError
  | unexpectedParam : DispatchError
  | lockFailure : DispatchError
  | droppedHandler : DispatchError
deriving DecidableEq

/-- The exact error string returned by each `return Err(...)` site. -/
def DispatchError.message : DispatchError → String
  | .countMismatch => "mismatched param counts to active handlers"
  | .shapeMismatch n => "mismatching params for " ++ toString n ++ " handlers"
  | .unexpectedParam => "unexpected mismatching param"
  | .lockFailure => "retreiving mutex guard of handler failure"
  | .droppedHandler => "unexpected dropped handler"

deriving instance DecidableEq for Except

/-- One element of `CallbackManager::handlers`: a weak handle to a slot whose
`CallbackHandler` variant has arity `tag`.  `id` names the slot so that
liveness oracles and the invocation trace can refer to it. -/
structure Entry where
  id : Nat
  tag : Nat
deriving DecidableEq

/-- The `Weak::upgrade` / `Mutex::lock` outcomes at each probe site of one
`run_all` call (entry id ↦ probe succeeds).  `upPrune` is the probe inside
`drop_inactive`, `upCount` the one inside `active_count` as called from
`try_match_params`, `upCheck` and `lockCheck` the probes inside the mismatch
filter of `try_match_params`, and `upRun` and `lockRun` the probes inside the
invocation loop of `run_all`. -/
structure Probes where
  upPrune : Nat → Bool
  upCount : Nat → Bool
  upCheck : Nat → Bool
  lockCheck : Nat → Bool
  upRun : Nat → Bool
  lockRun : Nat → Bool

/-- A sequential execution: no strong handle is dropped during the call and
no mutex is poisoned, so every upgrade probe answers `up` and every lock
succeeds. -/
def Probes.seq (up : Nat → Bool) : Probes :=
  ⟨up, up, up, fun _ => true, up, fun _ => true⟩

/-- `CallbackManager::active_count` (src/lib.rs:94-102): iterate over the
stored sequence and count the entries whose weak handle upgrades. -/
def active_count (up : Nat → Bool) (handlers : List Entry) : Nat :=
  handlers.foldl (fun r e => if up e.id then r + 1 else r) 0

/-- `CallbackManager::drop_inactive` (src/lib.rs:104-112): replace the stored
sequence by the subsequence of entries whose weak handle upgrades. -/
def drop_inactive (up : Nat → Bool) (handlers : List Entry) : List Entry :=
  handlers.filter (fun e => up e.id)

/-- The filter closure of `try_match_params` (src/lib.rs:119-222) on the
enumerated pair (index `i`, entry `e`): `true` means the position mismatches.
A position matches only when the entry upgrades, its mutex locks, and
`params.get(i)` is a tuple of the same arity tag as the handler variant;
a dead entry, a poisoned lock, a missing index and a differing arity tag all
count as mismatches. -/
def handler_mismatch {T : Type} (upCheck lockCheck : Nat → Bool)
    (params : List (List T)) (i : Nat) (e : Entry) : Bool :=
  if upCheck e.id then
    if lockCheck e.id then
      match params[i]? with
      | some p => !(p.length == e.tag)
      | none => true
    else true
  else true

/-- The `mismatching_results` vector of `try_match_params`
(src/lib.rs:119-222): the enumerated positions kept by the filter. -/
def mismatching_results {T : Type} (upCheck lockCheck : Nat → Bool)
    (handlers : List Entry) (params : List (List T)) : List (Nat × Entry) :=
  handlers.enum.filter (fun ie => handler_mismatch upCheck lockCheck params ie.1 ie.2)

/-- `CallbackManager::try_match_params` (src/lib.rs:114-229): fail with
`countMismatch` when the batch length differs from `active_count`, otherwise
collect all mismatching positions and fail with `shapeMismatch` carrying
their number when there is at least one. -/
def try_match_params {T : Type} (upCount upCheck lockCheck : Nat → Bool)
    (handlers : List Entry) (params : List (List T)) : Except DispatchError Unit :=
  if params.length ≠ active_count upCount handlers then
    .error .countMismatch
  else
    if (mismatching_results upCheck lockCheck handlers params).length > 0 then
      .error (.shapeMismatch (mismatching_results upCheck lockCheck handlers params).length)
    else
      .ok ()

/-- The invocation loop of `run_all` (src/lib.rs:254-356) over the enumerated
stored sequence.  Returns the loop's result together with the trace of
invocations (entry id, argument values) it performed, in order.  An entry that
no longer upgrades aborts with `droppedHandler`, a poisoned lock aborts with
`lockFailure`, and a parameter tuple whose arity tag differs from the handler
variant (or a missing index) aborts with `unexpectedParam`; in all three cases
the entries already processed keep their invocations and no later entry is
reached. -/
def run_loop {T : Type} (upRun lockRun : Nat → Bool) (params : List (List T)) :
    List (Nat × Entry) → Except DispatchError Unit × List (Nat × List T)
  | [] => (.ok (), [])
  | (i, e) :: rest =>
    if upRun e.id then
      if lockRun e.id then
        match params[i]? with
        | some p =>
          if p.length = e.tag then
            let r := run_loop upRun lockRun params rest
            (r.1, (e.id, p) :: r.2)
          else
            (.error .unexpectedParam, [])
        | none => (.error .unexpectedParam, [])
      else
        (.error .lockFailure, [])
    else
      (.error .droppedHandler, [])

/-- `CallbackManager::run_all` (src/lib.rs:249-359): prune the stored
sequence, validate the batch with `try_match_params` (propagating its error
with the `?` operator), then run the invocation loop.  Returns the result,
the invocation trace, and the new stored sequence (the pruned one — the only
mutation of `self.handlers` is the assignment inside `drop_inactive`). -/
def run_all {T : Type} (pr : Probes) (handlers : List Entry)
    (params : List (List T)) :
    Except DispatchError Unit × List (Nat × List T) × List Entry :=
  let pruned := drop_inactive pr.upPrune handlers
  match try_match_params pr.upCount pr.upCheck pr.lockCheck pruned params with
  | .error e => (.error e, [], pruned)
  | .ok _ =>
    let r := run_loop pr.upRun pr.lockRun params pruned.enum
    (r.1, r.2, pruned)

/-- `CallbackManager::active_count` viewed as an operation on the manager
state: the method takes `&self`, so it returns its count and leaves the
stored sequence untouched. -/
def active_count_call (up : Nat → Bool) (handlers : List Entry) :
    Nat × List Entry :=
  (active_count up handlers, handlers)

/-- The number of positions at which the stored entry's arity tag differs
from the arity tag of the parameter tuple at the same position (the spec's
"mismatching positions", for a batch aligned with the sequence). -/
def mismatch_count {T : Type} (handlers : List Entry)
    (params : List (List T)) : Nat :=
  ((handlers.zip params).filter (fun ep => !(ep.2.length == ep.1.tag))).length

theorem active_count_eq_length_filter (up : Nat → Bool) (handlers : List Entry) :
    active_count up handlers = (handlers.filter (fun e => up e.id)).length := by
  suffices h : ∀ (l : List Entry) (n : Nat),
      l.foldl (fun r e => if up e.id then r + 1 else r) n
        = n + (l.filter (fun e => up e.id)).length by
    simpa [active_count] using h handlers 0
  intro l
  induction l with
  | nil => intro n; simp
  | cons e l ih =>
    intro n
    by_cases hup : up e.id
    · simp only [List.foldl_cons, List.filter_cons, hup, if_pos, ih, List.length_cons]
      omega
    · simp only [List.foldl_cons, List.filter_cons, hup, if_neg, ih, Bool.false_eq_true,
        if_false]

theorem active_count_drop_inactive (up : Nat → Bool) (m : List Entry) :
    active_count up (drop_inactive up m) = (drop_inactive up m).length := by
  rw [active_count_eq_length_filter, drop_inactive, List.filter_filter]
  simp

theorem handler_mismatch_eq_false_iff {T : Type} (upCheck lockCheck : Nat → Bool)
    (params : List (List T)) (i : Nat) (e : Entry) :
    handler_mismatch upCheck lockCheck params i e = false ↔
      upCheck e.id = true ∧ lockCheck e.id = true ∧
        ∃ p, params[i]? = some p ∧ p.length = e.tag := by
  unfold handler_mismatch
  by_cases h1 : upCheck e.id
  · by_cases h2 : lockCheck e.id
    · cases hp : params[i]? with
      | none => simp [h1, h2, hp]
      | some p => simp [h1, h2, hp]
    · simp [h1, h2]
  · simp [h1]

theorem try_match_params_ok_iff {T : Type} (upCount upCheck lockCheck : Nat → Bool)
    (hs : List Entry) (params : List (List T)) :
    try_match_params upCount upCheck lockCheck hs params = .ok () ↔
      params.length = active_count upCount hs ∧
        mismatching_results upCheck lockCheck hs params = [] := by
  unfold try_match_params
  by_cases h1 : params.length = active_count upCount hs
  · by_cases h2 : (mismatching_results upCheck lockCheck hs params).length > 0
    · have hne : mismatching_results upCheck lockCheck hs params ≠ [] :=
        List.length_pos.mp h2
      simp [h1, h2, hne]
    · have hnil : mismatching_results upCheck lockCheck hs params = [] :=
        List.length_eq_zero.mp (Nat.eq_zero_of_not_pos h2)
      simp [h1, h2, hnil]
  · simp [h1]

theorem try_match_params_count_error {T : Type} (upCount upCheck lockCheck : Nat → Bool)
    (hs : List Entry) (params : List (List T))
    (h : params.length ≠ active_count upCount hs) :
    try_match_params upCount upCheck lockCheck hs params = .error .countMismatch := by
  simp [try_match_params, h]

theorem try_match_params_shape_error {T : Type} (upCount upCheck lockCheck : Nat → Bool)
    (hs : List Entry) (params : List (List T))
    (h1 : params.length = active_count upCount hs)
    (h2 : mismatching_results upCheck lockCheck hs params ≠ []) :
    try_match_params upCount upCheck lockCheck hs params =
      .error (.shapeMismatch (mismatching_results upCheck lockCheck hs params).length) := by
  simp [try_match_params, h1, List.length_pos.mpr h2]

theorem run_loop_ok {T : Type} (upRun lockRun : Nat → Bool) (params : List (List T))
    (l : List (Nat × Entry))
    (h : ∀ ie ∈ l, upRun ie.2.id = true ∧ lockRun ie.2.id = true ∧
        ∃ p, params[ie.1]? = some p ∧ p.length = ie.2.tag) :
    run_loop upRun lockRun params l =
      (.ok (), l.map (fun ie => (ie.2.id, (params[ie.1]?).getD []))) := by
  induction l with
  | nil => rfl
  | cons ie rest ih =>
    obtain ⟨hup, hlock, p, hp, hlen⟩ := h ie (List.mem_cons_self ie rest)
    have hrest := fun x hx => h x (List.mem_cons_of_mem ie hx)
    obtain ⟨i, e⟩ := ie
    simp only [] at hup hlock hp hlen
    simp [run_loop, hup, hlock, hp, hlen, ih hrest]

theorem run_loop_error_cases {T : Type} (upRun lockRun : Nat → Bool)
    (params : List (List T)) :
    ∀ (l : List (Nat × Entry)) (err : DispatchError),
      (run_loop upRun lockRun params l).1 = .error err →
      err = .unexpectedParam ∨ err = .lockFailure ∨ err = .droppedHandler := by
  intro l
  induction l with
  | nil =>
    intro err h
    simp [run_loop] at h
  | cons ie rest ih =>
    intro err h
    obtain ⟨i, e⟩ := ie
    by_cases hup : upRun e.id
    · by_cases hlock : lockRun e.id
      · cases hp : params[i]? with
        | none =>
          simp [run_loop, hup, hlock, hp] at h
          exact Or.inl h.symm
        | some p =>
          by_cases hlen : p.length = e.tag
          · simp only [run_loop, hup, hlock, hp, hlen, if_true, if_pos] at h
            exact ih err h
          · simp [run_loop, hup, hlock, hp, hlen] at h
            exact Or.inl h.symm
      · simp [run_loop, hup, hlock] at h
        exact Or.inr (Or.inl h.symm)
    · simp [run_loop, hup] at h
      exact Or.inr (Or.inr h.symm)

theorem run_loop_abort {T : Type} (upRun lockRun : Nat → Bool) (params : List (List T)) :
    ∀ (l : List (Nat × Entry)) (j : Nat) (hj : j < l.length),
      (∀ ie ∈ l, ∃ p, params[ie.1]? = some p ∧ p.length = ie.2.tag) →
      (∀ i (hi : i < j), upRun ((l.get ⟨i, hi.trans hj⟩).2.id) = true ∧
          lockRun ((l.get ⟨i, hi.trans hj⟩).2.id) = true) →
      upRun ((l.get ⟨j, hj⟩).2.id) = false →
      run_loop upRun lockRun params l =
        (.error .droppedHandler,
          (l.take j).map (fun ie => (ie.2.id, (params[ie.1]?).getD []))) := by
  intro l
  induction l with
  | nil =>
    intro j hj
    exact absurd hj (Nat.not_lt_zero j)
  | cons ie rest ih =>
    intro j hj hmatch hbefore hdead
    obtain ⟨i, e⟩ := ie
    cases j with
    | zero =>
      simp only [List.get] at hdead
      simp [run_loop, hdead]
    | succ j =>
      have hhead := hbefore 0 (Nat.succ_pos j)
      simp only [List.get] at hhead
      obtain ⟨p, hp, hlen⟩ := hmatch (i, e) (List.mem_cons_self (i, e) rest)
      simp only [] at hp hlen
      have hj' : j < rest.length := Nat.lt_of_succ_lt_succ hj
      have hrec := ih j hj' (fun x hx => hmatch x (List.mem_cons_of_mem (i, e) hx))
        (fun i' hi' => hbefore (i' + 1) (Nat.succ_lt_succ hi'))
        hdead
      simp [run_loop, hhead.1, hhead.2, hp, hlen, hrec]

theorem enumFrom_map_getD_eq_zipWith {T : Type} (params : List (List T)) :
    ∀ (l : List Entry) (n : Nat), n + l.length ≤ params.length →
      (List.enumFrom n l).map (fun ie => (ie.2.id, (params[ie.1]?).getD [])) =
        List.zipWith (fun e p => (e.id, p)) l (params.drop n) := by
  intro l
  induction l with
  | nil => intro n h; simp
  | cons e rest ih =>
    intro n h
    have hn : n < params.length := by simp at h; omega
    have hp : params[n]? = some params[n] := List.getElem?_eq_getElem hn
    have hdrop : params.drop n = params[n] :: params.drop (n + 1) :=
      List.drop_eq_getElem_cons hn
    rw [List.enumFrom_cons, List.map_cons, hdrop, List.zipWith_cons_cons]
    simp only [hp, Option.getD_some]
    exact congrArg _ (ih (n + 1) (by simp at h ⊢; omega))

theorem enumFrom_mismatch_length_eq {T : Type} (upCheck lockCheck : Nat → Bool)
    (params : List (List T)) :
    ∀ (l : List Entry) (n : Nat),
      (∀ e ∈ l, upCheck e.id = true ∧ lockCheck e.id = true) →
      n + l.length ≤ params.length →
      ((List.enumFrom n l).filter
          (fun ie => handler_mismatch upCheck lockCheck params ie.1 ie.2)).length =
        ((l.zip (params.drop n)).filter
          (fun ep => !(ep.2.length == ep.1.tag))).length := by
  intro l
  induction l with
  | nil => intro n _ _; simp
  | cons e rest ih =>
    intro n hlive h
    have hn : n < params.length := by simp at h; omega
    have hp : params[n]? = some params[n] := List.getElem?_eq_getElem hn
    have hdrop : params.drop n = params[n] :: params.drop (n + 1) :=
      List.drop_eq_getElem_cons hn
    have he := hlive e (List.mem_cons_self e rest)
    have hm : handler_mismatch upCheck lockCheck params n e =
        !(params[n].length == e.tag) := by
      simp [handler_mismatch, he.1, he.2, hp]
    have hrest := ih (n + 1) (fun x hx => hlive x (List.mem_cons_of_mem e hx))
      (by simp at h ⊢; omega)
    rw [List.enumFrom_cons, hdrop, List.zip_cons_cons, List.filter_cons, List.filter_cons]
    simp only [hm]
    cases hb : (!(params[n].length == e.tag)) with
    | true => simp [hrest]
    | false => simp [hrest]

theorem mismatching_results_nil_iff {T : Type} (upCheck lockCheck : Nat → Bool)
    (hs : List Entry) (params : List (List T)) :
    mismatching_results upCheck lockCheck hs params = [] ↔
      ∀ ie ∈ hs.enum, handler_mismatch upCheck lockCheck params ie.1 ie.2 = false := by
  unfold mismatching_results
  rw [List.filter_eq_nil_iff]
  simp

theorem run_all_seq_of_valid {T : Type} (up : Nat → Bool) (handlers : List Entry)
    (params : List (List T))
    (hok : try_match_params up up (fun _ => true)
      (drop_inactive up handlers) params = .ok ()) :
    run_all (Probes.seq up) handlers params =
      (.ok (), List.zipWith (fun e p => (e.id, p)) (drop_inactive up handlers) params,
        drop_inactive up handlers) := by
  obtain ⟨hcount, hnil⟩ := (try_match_params_ok_iff up up (fun _ => true)
    (drop_inactive up handlers) params).mp hok
  have hlen : params.length = (drop_inactive up handlers).length := by
    rw [hcount, active_count_drop_inactive]
  have hcond : ∀ ie ∈ (drop_inactive up handlers).enum,
      up ie.2.id = true ∧ (fun _ : Nat => true) ie.2.id = true ∧
        ∃ p, params[ie.1]? = some p ∧ p.length = ie.2.tag := by
    intro ie hie
    have hfalse := (mismatching_results_nil_iff up (fun _ => true)
      (drop_inactive up handlers) params).mp hnil ie hie
    have := (handler_mismatch_eq_false_iff up (fun _ => true) params ie.1 ie.2).mp hfalse
    exact ⟨this.1, rfl, this.2.2⟩
  have hloop := run_loop_ok up (fun _ => true) params
    ((drop_inactive up handlers).enum) hcond
  have htrace : ((drop_inactive up handlers).enum).map
      (fun ie => (ie.2.id, (params[ie.1]?).getD [])) =
      List.zipWith (fun e p => (e.id, p)) (drop_inactive up handlers) params := by
    have := enumFrom_map_getD_eq_zipWith params (drop_inactive up handlers) 0
      (by omega)
    simpa [List.enum] using this
  simp [run_all, Probes.seq, hok, hloop, htrace]

/-- C1: for every registry and every parameter batch whose length equals the
number of live handlers after pruning and whose arity tag at each position
equals the arity tag of the live handler at that position, `run_all` succeeds
and invokes each live handler exactly once, in registration order, with the
values of the tuple at its position. -/
theorem run_all_full_match_invokes_all {T : Type} (up : Nat → Bool)
    (handlers : List Entry) (params : List (List T))
    (hlen : params.length = (drop_inactive up handlers).length)
    (htags : ∀ i (hi : i < (drop_inactive up handlers).length)
      (hip : i < params.length),
      ((drop_inactive up handlers).get ⟨i, hi⟩).tag = (params.get ⟨i, hip⟩).length) :
    run_all (Probes.seq up) handlers params =
      (.ok (), List.zipWith (fun e p => (e.id, p)) (drop_inactive up handlers) params,
        drop_inactive up handlers) := by
  apply run_all_seq_of_valid
  apply (try_match_params_ok_iff up up (fun _ => true)
    (drop_inactive up handlers) params).mpr
  refine ⟨by rw [active_count_drop_inactive]; exact hlen, ?_⟩
  apply (mismatching_results_nil_iff up (fun _ => true)
    (drop_inactive up handlers) params).mpr
  intro ie hie
  apply (handler_mismatch_eq_false_iff up (fun _ => true) params ie.1 ie.2).mpr
  have hsome : (drop_inactive up handlers)[ie.1]? = some ie.2 :=
    List.mem_enum_iff_getElem?.mp hie
  obtain ⟨hi, hget⟩ := List.getElem?_eq_some.mp hsome
  have hmem : ie.2 ∈ drop_inactive up handlers := hget ▸ List.getElem_mem hi
  have hup : up ie.2.id = true := (List.mem_filter.mp hmem).2
  have hip : ie.1 < params.length := by omega
  refine ⟨hup, rfl, params.get ⟨ie.1, hip⟩, ?_, ?_⟩
  · simp [List.getElem?_eq_getElem hip]
  · have := htags ie.1 hi hip
    rw [← this]
    congr 1

/-- C9: in a sequential single-execution-context run (all upgrade probes agree
and every lock succeeds), once the count and shape checks of `run_all` have
both passed, the failure branches of the invocation loop are unreachable and
`run_all` returns success. -/
theorem run_all_seq_validated_returns_ok {T : Type} (up : Nat → Bool)
    (handlers : List Entry) (params : List (List T))
    (hok : try_match_params up up (fun _ => true)
      (drop_inactive up handlers) params = .ok ()) :
    (run_all (Probes.seq up) handlers params).1 = .ok () := by
  rw [run_all_seq_of_valid up handlers params hok]

/-- C2: for every registry and every parameter batch whose length differs from
the number of currently live handlers (the length of the pruned sequence),
`run_all` fails with the count-mismatch error and invokes zero handlers. -/
theorem run_all_count_mismatch {T : Type} (up : Nat → Bool) (handlers : List Entry)
    (params : List (List T))
    (hlen : params.length ≠ (drop_inactive up handlers).length) :
    run_all (Probes.seq up) handlers params =
      (.error .countMismatch, [], drop_inactive up handlers) := by
  have hcount : params.length ≠ active_count up (drop_inactive up handlers) := by
    rw [active_count_drop_inactive]; exact hlen
  have herr := try_match_params_count_error up up (fun _ => true)
    (drop_inactive up handlers) params hcount
  simp [run_all, Probes.seq, herr]

/-- C3: for every registry and every batch of correct length with at least one
positional arity-tag mismatch, `run_all` fails with the shape-mismatch error
whose reported count is exactly the number of mismatching positions, and
invokes zero handlers. -/
theorem run_all_shape_mismatch {T : Type} (up : Nat → Bool) (handlers : List Entry)
    (params : List (List T))
    (hlen : params.length = (drop_inactive up handlers).length)
    (hmis : 0 < mismatch_count (drop_inactive up handlers) params) :
    run_all (Probes.seq up) handlers params =
      (.error (.shapeMismatch (mismatch_count (drop_inactive up handlers) params)),
        [], drop_inactive up handlers) := by
  have hlive : ∀ e ∈ drop_inactive up handlers, up e.id = true ∧
      (fun _ : Nat => true) e.id = true :=
    fun e he => ⟨(List.mem_filter.mp he).2, rfl⟩
  have hms : (mismatching_results up (fun _ => true)
      (drop_inactive up handlers) params).length =
      mismatch_count (drop_inactive up handlers) params := by
    unfold mismatching_results mismatch_count
    have := enumFrom_mismatch_length_eq up (fun _ => true) params
      (drop_inactive up handlers) 0 hlive (by omega)
    simpa [List.enum] using this
  have hcount : params.length = active_count up (drop_inactive up handlers) := by
    rw [active_count_drop_inactive]; exact hlen
  have hne : mismatching_results up (fun _ => true)
      (drop_inactive up handlers) params ≠ [] :=
    List.length_pos.mp (hms ▸ hmis)
  have herr := try_match_params_shape_error up up (fun _ => true)
    (drop_inactive up handlers) params hcount hne
  rw [hms] at herr
  simp [run_all, Probes.seq, herr]

/-- C5: the prune step removes from the stored sequence exactly the entries
whose weak handle no longer upgrades; the result is a subsequence of the
original sequence (same relative order, nothing reordered) whose members are
exactly the currently-live entries. -/
theorem drop_inactive_exact_live_in_order (up : Nat → Bool) (m : List Entry) :
    (drop_inactive up m).Sublist m ∧
      ∀ e, e ∈ drop_inactive up m ↔ e ∈ m ∧ up e.id = true := by
  refine ⟨List.filter_sublist m, fun e => ?_⟩
  simp [drop_inactive, List.mem_filter]

/-- C6: `active_count` returns the number of sequence entries whose weak
handle currently upgrades: with all handles retained it is the registered
count, and with some handles dropped it is the registered count minus the
number of dropped entries. -/
theorem active_count_counts_live (up : Nat → Bool) (m : List Entry) :
    active_count up m = (m.filter (fun e => up e.id)).length ∧
      ((∀ e ∈ m, up e.id = true) → active_count up m = m.length) ∧
      active_count up m = m.length - (m.filter (fun e => !(up e.id))).length := by
  have hfil := active_count_eq_length_filter up m
  have hsplit := List.length_eq_length_filter_add (l := m) (fun e => up e.id)
  refine ⟨hfil, fun hall => ?_, by rw [hfil]; omega⟩
  rw [hfil, List.filter_eq_self.mpr hall]

/-- C7: `active_count` takes the manager by shared reference and never
mutates the stored sequence, so two consecutive calls with no intervening
operation return the same value. -/
theorem active_count_call_no_mutation (up : Nat → Bool) (m : List Entry) :
    (active_count_call up m).2 = m ∧
      (active_count_call up ((active_count_call up m).2)).1 =
        (active_count_call up m).1 :=
  ⟨rfl, rfl⟩

/-- C8: immediately after the prune step every stored entry still upgrades,
so `active_count` equals the length of the stored sequence; hence comparing
the batch length against `active_count` is the same check as comparing it
against the pruned sequence's length. -/
theorem active_count_after_prune_eq_length (up : Nat → Bool) (m : List Entry) :
    active_count up (drop_inactive up m) = (drop_inactive up m).length ∧
      ∀ n : Nat, (n ≠ active_count up (drop_inactive up m) ↔
        n ≠ (drop_inactive up m).length) := by
  exact ⟨active_count_drop_inactive up m,
    fun n => by rw [active_count_drop_inactive]⟩

/-- C4: if validation passed but the entry at position `j` of the pruned
sequence no longer upgrades when its turn to be invoked arrives (while every
earlier entry still upgrades and locks), `run_all` aborts with the
dispatch-time-absence error, the handlers before position `j` keep their
invocations, and no handler at or after position `j` is invoked. -/
theorem run_all_aborts_on_dispatch_time_absence {T : Type}
    (up upRun lockRun : Nat → Bool) (handlers : List Entry)
    (params : List (List T)) (j : Nat)
    (hok : try_match_params up up (fun _ => true)
      (drop_inactive up handlers) params = .ok ())
    (hj : j < (drop_inactive up handlers).length)
    (hdead : upRun (((drop_inactive up handlers).get ⟨j, hj⟩).id) = false)
    (hbefore : ∀ i (hi : i < j),
      upRun (((drop_inactive up handlers).get ⟨i, hi.trans hj⟩).id) = true ∧
        lockRun (((drop_inactive up handlers).get ⟨i, hi.trans hj⟩).id) = true) :
    run_all ⟨up, up, up, fun _ => true, upRun, lockRun⟩ handlers params =
      (.error .droppedHandler,
        (List.zipWith (fun e p => (e.id, p))
          (drop_inactive up handlers) params).take j,
        drop_inactive up handlers) := by
  obtain ⟨hcount, hnil⟩ := (try_match_params_ok_iff up up (fun _ => true)
    (drop_inactive up handlers) params).mp hok
  have hlen : params.length = (drop_inactive up handlers).length := by
    rw [hcount, active_count_drop_inactive]
  have hmatch : ∀ ie ∈ (drop_inactive up handlers).enum,
      ∃ p, params[ie.1]? = some p ∧ p.length = ie.2.tag := by
    intro ie hie
    have hfalse := (mismatching_results_nil_iff up (fun _ => true)
      (drop_inactive up handlers) params).mp hnil ie hie
    exact ((handler_mismatch_eq_false_iff up (fun _ => true)
      params ie.1 ie.2).mp hfalse).2.2
  have hj' : j < (drop_inactive up handlers).enum.length := by
    rw [List.enum_length]; exact hj
  have henumget : ∀ (i : Nat) (h1 : i < (drop_inactive up handlers).enum.length)
      (h2 : i < (drop_inactive up handlers).length),
      (drop_inactive up handlers).enum.get ⟨i, h1⟩ =
        (i, (drop_inactive up handlers).get ⟨i, h2⟩) := by
    intro i h1 h2
    simp [List.get_eq_getElem, List.getElem_enum]
  have habort := run_loop_abort upRun lockRun params
    ((drop_inactive up handlers).enum) j hj' hmatch
    (fun i hi => by
      rw [henumget i (hi.trans hj') (hi.trans hj)]
      exact hbefore i hi)
    (by rw [henumget j hj' hj]; exact hdead)
  have htake : ((drop_inactive up handlers).enum.take j).map
      (fun ie => (ie.2.id, (params[ie.1]?).getD [])) =
      (List.zipWith (fun e p => (e.id, p))
        (drop_inactive up handlers) params).take j := by
    rw [List.map_take]
    have := enumFrom_map_getD_eq_zipWith params (drop_inactive up handlers) 0
      (by omega)
    rw [show (drop_inactive up handlers).enum
        = List.enumFrom 0 (drop_inactive up handlers) from rfl, this]
    simp
  rw [htake] at habort
  simp [run_all, hok, habort]

/-- C10: whenever `run_all` returns the count-mismatch error or a
shape-mismatch error, no handler has been invoked, yet the stored sequence has
been replaced by its pruned version — pruning happens even on the error path
and is the only state change. -/
theorem run_all_validation_error_prunes_only {T : Type} (pr : Probes)
    (handlers : List Entry) (params : List (List T))
    (h : (run_all pr handlers params).1 = .error .countMismatch ∨
      ∃ k, (run_all pr handlers params).1 = .error (.shapeMismatch k)) :
    (run_all pr handlers params).2.1 = [] ∧
      (run_all pr handlers params).2.2 = drop_inactive pr.upPrune handlers := by
  cases htry : try_match_params pr.upCount pr.upCheck pr.lockCheck
      (drop_inactive pr.upPrune handlers) params with
  | error e => simp [run_all, htry]
  | ok u =>
    exfalso
    have h1 : (run_all pr handlers params).1 =
        (run_loop pr.upRun pr.lockRun params
          (drop_inactive pr.upPrune handlers).enum).1 := by
      simp [run_all, htry]
    rcases h with h | ⟨k, h⟩
    · rcases run_loop_error_cases pr.upRun pr.lockRun params
        ((drop_inactive pr.upPrune handlers).enum) DispatchError.countMismatch
        (h1.symm.trans h) with h2 | h2 | h2 <;> simp at h2
    · rcases run_loop_error_cases pr.upRun pr.lockRun params
        ((drop_inactive pr.upPrune handlers).enum) (DispatchError.shapeMismatch k)
        (h1.symm.trans h) with h2 | h2 | h2 <;> simp at h2

theorem run_all_full_match_invokes_all_witness :
    run_all (Probes.seq (fun _ => true)) [⟨1, 0⟩, ⟨2, 2⟩]
        ([[], [5, 6]] : List (List Nat)) =
      (.ok (), List.zipWith (fun e p => (e.id, p))
        (drop_inactive (fun _ => true) [⟨1, 0⟩, ⟨2, 2⟩]) [[], [5, 6]],
        drop_inactive (fun _ => true) [⟨1, 0⟩, ⟨2, 2⟩]) :=
  run_all_full_match_invokes_all (fun _ => true) [⟨1, 0⟩, ⟨2, 2⟩] [[], [5, 6]]
    (by decide) (by decide)

theorem run_all_count_mismatch_witness :
    run_all (Probes.seq (fun _ => true)) [⟨1, 1⟩] ([] : List (List Nat)) =
      (.error .countMismatch, [], drop_inactive (fun _ => true) [⟨1, 1⟩]) :=
  run_all_count_mismatch (fun _ => true) [⟨1, 1⟩] [] (by decide)

theorem run_all_shape_mismatch_witness :
    run_all (Probes.seq (fun _ => true)) [⟨1, 0⟩, ⟨2, 2⟩]
        ([[], [7]] : List (List Nat)) =
      (.error (.shapeMismatch (mismatch_count
          (drop_inactive (fun _ => true) [⟨1, 0⟩, ⟨2, 2⟩]) [[], [7]])),
        [], drop_inactive (fun _ => true) [⟨1, 0⟩, ⟨2, 2⟩]) :=
  run_all_shape_mismatch (fun _ => true) [⟨1, 0⟩, ⟨2, 2⟩] [[], [7]]
    (by decide) (by decide)

theorem run_all_aborts_on_dispatch_time_absence_witness :
    run_all ⟨fun _ => true, fun _ => true, fun _ => true, fun _ => true,
        fun i => !(i == 2), fun _ => true⟩ [⟨1, 1⟩, ⟨2, 0⟩, ⟨3, 2⟩]
        ([[4], [], [5, 6]] : List (List Nat)) =
      (.error .droppedHandler,
        (List.zipWith (fun e p => (e.id, p))
          (drop_inactive (fun _ => true) [⟨1, 1⟩, ⟨2, 0⟩, ⟨3, 2⟩])
          [[4], [], [5, 6]]).take 1,
        drop_inactive (fun _ => true) [⟨1, 1⟩, ⟨2, 0⟩, ⟨3, 2⟩]) :=
  run_all_aborts_on_dispatch_time_absence (fun _ => true) (fun i => !(i == 2))
    (fun _ => true) [⟨1, 1⟩, ⟨2, 0⟩, ⟨3, 2⟩] [[4], [], [5, 6]] 1
    (by decide) (by decide) (by decide) (by decide)

theorem active_count_counts_live_witness :
    active_count (fun _ => true) [⟨1, 0⟩, ⟨2, 1⟩] = 2 :=
  (active_count_counts_live (fun _ => true) [⟨1, 0⟩, ⟨2, 1⟩]).2.1 (by decide)

theorem run_all_seq_validated_returns_ok_witness :
    (run_all (Probes.seq (fun _ => true)) [⟨1, 1⟩]
      ([[3]] : List (List Nat))).1 = .ok () :=
  run_all_seq_validated_returns_ok (fun _ => true) [⟨1, 1⟩] [[3]] (by decide)

theorem run_all_validation_error_prunes_only_witness :
    (run_all (Probes.seq (fun _ => true)) [⟨1, 0⟩]
        ([] : List (List Nat))).2.1 = [] ∧
      (run_all (Probes.seq (fun _ => true)) [⟨1, 0⟩]
        ([] : List (List Nat))).2.2 =
        drop_inactive (Probes.seq (fun _ => true)).upPrune [⟨1, 0⟩] :=
  run_all_validation_error_prunes_only (Probes.seq (fun _ => true)) [⟨1, 0⟩] []
    (Or.inl (by decide))
